import Mathlib

/-!
Shallow embedding of the Attar shop backend's order / inventory / review
workflow, translated from the JavaScript sources:

  * `models/Product.js`, `models/Order.js`, `models/Review.js` — the data
    model (per-size stock counters, order records, review records);
  * `routes/orders.js` (appended to `routes/admin.js` in the repo) — place
    order, cancel order, admin status update;
  * `routes/cart.js` — cart validation and the coupon table;
  * `routes/reviews.js` — helpful-vote toggling;
  * `models/Review.js` `updateProductRating` — rating aggregation.

JavaScript numbers are modelled as exact rationals (`ℚ`); `Math.round(x*100)/100`
becomes `round2`, `Math.round(x*10)/10` becomes `round1` (JS `Math.round x`
is `⌊x + 1/2⌋`).  MongoDB's `updateOne` with a positional `$inc` updates the
first document matching the whole query, and inside it the first array entry
matching the array condition; `findById` / `find?` locate the first record with
the given id.  Timestamps are opaque naturals supplied as a `now` argument.
-/

namespace Attar

/-- A per-size entry of a product (`models/Product.js` `sizes`): volume label,
unit price (schema `min: 0`) and stock counter (schema `min: 0`). -/
structure SizeEntry where
  volume : String
  price : ℚ
  stock : ℚ
deriving DecidableEq

/-- Aggregate rating of a product (`models/Product.js` `ratings`). -/
structure Ratings where
  average : ℚ
  count : Nat
deriving DecidableEq

/-- A product record (`models/Product.js`), restricted to the fields the
order / cart / review workflows read or write. -/
structure Product where
  id : Nat
  name : String
  isActive : Bool
  images : List String
  sizes : List SizeEntry
  ratings : Ratings
deriving DecidableEq

/-- The seven order statuses of `models/Order.js`. -/
inductive OrderStatus
  | pending
  | confirmed
  | processing
  | shipped
  | delivered
  | cancelled
  | refunded
deriving DecidableEq

/-- The status string, as interpolated into default history messages. -/
def OrderStatus.toName : OrderStatus → String
  | .pending => "pending"
  | .confirmed => "confirmed"
  | .processing => "processing"
  | .shipped => "shipped"
  | .delivered => "delivered"
  | .cancelled => "cancelled"
  | .refunded => "refunded"

/-- A snapshotted order line item (`models/Order.js` `items`). -/
structure OrderItem where
  product : Nat
  name : String
  image : String
  size : String
  price : ℚ
  quantity : ℚ
deriving DecidableEq

/-- The pricing breakdown persisted on an order (`models/Order.js` `pricing`). -/
structure Pricing where
  subtotal : ℚ
  shipping : ℚ
  tax : ℚ
  discount : ℚ
  total : ℚ
deriving DecidableEq

/-- The payment sub-record (`models/Order.js` `payment`), restricted to the
fields the modelled routes touch. -/
structure Payment where
  method : String
  paidAt : Option Nat
deriving DecidableEq

/-- One entry of the order's status history (`models/Order.js` `statusHistory`). -/
structure StatusEntry where
  status : OrderStatus
  message : String
  timestamp : Nat
deriving DecidableEq

/-- An order record (`models/Order.js`). -/
structure Order where
  user : Nat
  items : List OrderItem
  pricing : Pricing
  couponCode : Option String
  couponDiscount : Option ℚ
  payment : Payment
  status : OrderStatus
  statusHistory : List StatusEntry
  tracking : Option String
deriving DecidableEq

/-- A review record (`models/Review.js`), restricted to the fields the rating
aggregation and helpful-vote toggle use. -/
structure Review where
  user : Nat
  product : Nat
  rating : ℚ
  isApproved : Bool
  helpfulVotes : Int
  votedBy : List Nat
deriving DecidableEq

/-- The database state the modelled routes read and write: the product
collection and the order collection (keyed by order id). -/
structure Db where
  products : List Product
  orders : List (Nat × Order)
deriving DecidableEq

/-- Route results are `Except` values; deciding equality on them lets the
concrete-input theorems below evaluate by `decide`. -/
instance {e a : Type} [DecidableEq e] [DecidableEq a] : DecidableEq (Except e a) := fun x y =>
  match x, y with
  | .error u, .error v => decidable_of_iff (u = v) (by simp)
  | .error _, .ok _ => .isFalse (by simp)
  | .ok _, .error _ => .isFalse (by simp)
  | .ok u, .ok v => decidable_of_iff (u = v) (by simp)

/-- `Product.findById`: the first product with the given id. -/
def findProduct (products : List Product) (pid : Nat) : Option Product :=
  products.find? (fun p => p.id == pid)

/-- `product.sizes.find(s => s.volume === size)`. -/
def findSize (sizes : List SizeEntry) (vol : String) : Option SizeEntry :=
  sizes.find? (fun s => s.volume == vol)

/-- The stock counter of product `pid`, size `vol`, when both exist. -/
def stockOf (products : List Product) (pid : Nat) (vol : String) : Option ℚ :=
  (findProduct products pid).bind (fun p => (findSize p.sizes vol).map (fun s => s.stock))

/-- JS `Math.round(q * 100) / 100` — rounding to two decimals, halves up. -/
def round2 (q : ℚ) : ℚ := (⌊q * 100 + 1/2⌋ : ℚ) / 100

/-- JS `Math.round(q * 10) / 10` — rounding to one decimal, halves up. -/
def round1 (q : ℚ) : ℚ := (⌊q * 10 + 1/2⌋ : ℚ) / 10

/-- The positional update inside `Product.updateOne({_id, 'sizes.volume': vol}, {$inc:
{'sizes.$.stock': d}})`: add `d` to the stock of the first size entry labelled `vol`. -/
def incFirstSize : List SizeEntry → String → ℚ → List SizeEntry
  | [], _, _ => []
  | s :: rest, vol, d =>
    if s.volume == vol then { s with stock := s.stock + d } :: rest
    else s :: incFirstSize rest vol d

/-- Whether a product document matches the query part `'sizes.volume': vol`. -/
def hasSize (p : Product) (vol : String) : Bool :=
  p.sizes.any (fun s => s.volume == vol)

/-- `Product.updateOne({_id: pid, 'sizes.volume': vol}, {$inc: {'sizes.$.stock': d}})`:
the first product matching the whole query gets the positional `$inc`; when no
document matches (absent id, or the product lacks the size) nothing changes. -/
def updateOneInc : List Product → Nat → String → ℚ → List Product
  | [], _, _, _ => []
  | p :: rest, pid, vol, d =>
    if p.id == pid && hasSize p vol then { p with sizes := incFirstSize p.sizes vol d } :: rest
    else p :: updateOneInc rest pid vol d

/-- The stock-reduction loop after order creation (`routes/orders.js`, place
order): one `updateOne` with `$inc: -quantity` per line item, in list order. -/
def reduceStock (products : List Product) (items : List OrderItem) : List Product :=
  items.foldl (fun c it => updateOneInc c it.product it.size (-it.quantity)) products

/-- The stock-restoration loop of the cancel route: one `updateOne` with
`$inc: +quantity` per line item, in list order. -/
def restoreStock (products : List Product) (items : List OrderItem) : List Product :=
  items.foldl (fun c it => updateOneInc c it.product it.size it.quantity) products

/-- A requested line item of the place-order request body. -/
structure ReqItem where
  product : Nat
  size : String
  quantity : ℚ
deriving DecidableEq

/-- The place-order request body, restricted to the fields the handler reads. -/
structure PlaceRequest where
  items : List ReqItem
  paymentMethod : Option String
  coupon : Option String
deriving DecidableEq

/-- Order-placement errors, one constructor per early `return res.status(400)`
of the handler plus the `Order.create` schema rejection. -/
inductive OrderError
  | validationFailed
  | productNotFound (pid : Nat)
  | sizeUnavailable (size : String)
  | insufficientStock (name : String)
  | invalidQuantity
deriving DecidableEq

/-- The product and size entry a requested item resolves to: the product must
exist and be active, and carry a size entry with the requested volume. -/
def resolveItem (products : List Product) (it : ReqItem) : Option (Product × SizeEntry) :=
  match findProduct products it.product with
  | none => none
  | some p =>
    if p.isActive then (findSize p.sizes it.size).map (fun s => (p, s)) else none

/-- The validation loop of the place-order handler: per requested item, product
lookup (absent or inactive ⇒ not found), size lookup, stock check, then the
snapshotted order item is pushed and `subtotal += price * quantity`. -/
def processItems (products : List Product) : List ReqItem → Except OrderError (List OrderItem × ℚ)
  | [] => .ok ([], 0)
  | it :: rest =>
    match findProduct products it.product with
    | none => .error (.productNotFound it.product)
    | some p =>
      if !p.isActive then .error (.productNotFound it.product)
      else
        match findSize p.sizes it.size with
        | none => .error (.sizeUnavailable it.size)
        | some s =>
          if s.stock < it.quantity then .error (.insufficientStock p.name)
          else
            match processItems products rest with
            | .error e => .error e
            | .ok (ois, sub) =>
              .ok ({ product := p.id, name := p.name, image := (p.images.head?).getD "",
                     size := it.size, price := s.price, quantity := it.quantity } :: ois,
                   s.price * it.quantity + sub)

/-- The totals block of the place-order handler: `shipping = subtotal >= 100 ? 0 : 9.99`,
`tax = round2(subtotal * 0.05)`, `discount = round2(subtotal * 0.10)` whenever any
coupon code is present (the handler's flat "simple 10% for demo" rule), and
`total = round2(subtotal + shipping + tax - discount)`. -/
def computePricing (subtotal : ℚ) (hasCoupon : Bool) : Pricing :=
  let shipping : ℚ := if 100 ≤ subtotal then 0 else 999/100
  let tax := round2 (subtotal * (5/100))
  let discount := if hasCoupon then round2 (subtotal * (10/100)) else 0
  { subtotal := subtotal, shipping := shipping, tax := tax, discount := discount,
    total := round2 (subtotal + shipping + tax - discount) }

/-- `POST /api/orders` (`routes/orders.js`): express-validator rejects an empty
item list; the validation loop runs; `Order.create` persists the order (its
schema requires every quantity ≥ 1) with status `pending` and a one-entry
history; then the stock-reduction loop runs.  Every failure path returns
before any write, so the database comes back unchanged on error. -/
def placeOrder (db : Db) (uid : Nat) (req : PlaceRequest) (now : Nat) :
    Except OrderError Order × Db :=
  if req.items.isEmpty then (.error .validationFailed, db)
  else
    match processItems db.products req.items with
    | .error e => (.error e, db)
    | .ok (orderItems, subtotal) =>
      if orderItems.all (fun it => decide ((1 : ℚ) ≤ it.quantity)) then
        let pricing := computePricing subtotal req.coupon.isSome
        let order : Order :=
          { user := uid, items := orderItems, pricing := pricing,
            couponCode := req.coupon,
            couponDiscount := req.coupon.map (fun _ => pricing.discount),
            payment := { method := req.paymentMethod.getD "stripe", paidAt := none },
            status := .pending,
            statusHistory := [{ status := .pending, message := "Order placed successfully",
                                timestamp := now }],
            tracking := none }
        (.ok order,
         { products := reduceStock db.products orderItems,
           orders := db.orders ++ [(db.orders.length, order)] })
      else (.error .invalidQuantity, db)

/-- `Order.findById` on the order collection. -/
def findOrder (db : Db) (oid : Nat) : Option Order :=
  (db.orders.find? (fun o => o.1 == oid)).map (fun o => o.2)

/-- `order.save()`: the stored record with the given id is replaced. -/
def saveOrder (orders : List (Nat × Order)) (oid : Nat) (order : Order) :
    List (Nat × Order) :=
  orders.map (fun o => if o.1 == oid then (o.1, order) else o)

/-- Errors of `PUT /api/orders/:id/cancel`: missing order, foreign order, and
the 400 "cannot be cancelled" rejection for a non-cancellable status. -/
inductive CancelError
  | notFound
  | forbidden
  | conflict (st : OrderStatus)
deriving DecidableEq

/-- `PUT /api/orders/:id/cancel` (`routes/orders.js`): ownership check, then
`status ∈ {pending, confirmed}` check; on success the status becomes
`cancelled`, a history entry is appended (message from `req.body.reason`,
defaulting to "Cancelled by customer"), the order is saved, and the
stock-restoration loop runs over the order's line items. -/
def cancelOrder (db : Db) (oid uid : Nat) (reason : Option String) (now : Nat) :
    Except CancelError Order × Db :=
  match findOrder db oid with
  | none => (.error .notFound, db)
  | some order =>
    if order.user != uid then (.error .forbidden, db)
    else if order.status == .pending || order.status == .confirmed then
      let order2 := { order with
        status := OrderStatus.cancelled,
        statusHistory := order.statusHistory ++
          [{ status := .cancelled, message := reason.getD "Cancelled by customer",
             timestamp := now }] }
      (.ok order2,
       { products := restoreStock db.products order.items,
         orders := saveOrder db.orders oid order2 })
    else (.error (.conflict order.status), db)

/-- Error of `PUT /api/orders/:id/status`: missing order.  (The route's other
rejection, a status string outside the seven legal ones, is unrepresentable
here because the target status is already an `OrderStatus`.) -/
inductive StatusError
  | notFound
deriving DecidableEq

/-- `PUT /api/orders/:id/status` (`routes/orders.js`, admin): sets the status
directly, appends a history entry, overwrites tracking when given, and on
`delivered` assigns `payment.paidAt = new Date()` unconditionally.  The
product collection is never touched. -/
def adminUpdateStatus (db : Db) (oid : Nat) (st : OrderStatus) (msg : Option String)
    (trk : Option String) (now : Nat) : Except StatusError Order × Db :=
  match findOrder db oid with
  | none => (.error .notFound, db)
  | some order =>
    let order2 := { order with
      status := st,
      statusHistory := order.statusHistory ++
        [{ status := st, message := msg.getD ("Status updated to " ++ st.toName),
           timestamp := now }],
      tracking := match trk with | some t => some t | none => order.tracking,
      payment := if st == OrderStatus.delivered then { order.payment with paidAt := some now }
                 else order.payment }
    (.ok order2, { db with orders := saveOrder db.orders oid order2 })

/-- A requested cart item of the `POST /api/cart/validate` body. -/
structure CartItem where
  productId : Nat
  size : String
  quantity : ℚ
deriving DecidableEq

/-- A validated cart line as returned by `POST /api/cart/validate`: the
returned `quantity` is `Math.min(requested, stock)` while the line `subtotal`
is `price * requested`. -/
structure ValidatedItem where
  productId : Nat
  name : String
  image : Option String
  size : String
  price : ℚ
  stock : ℚ
  quantity : ℚ
  subtotal : ℚ
deriving DecidableEq

/-- The pricing block of the cart-validation response (its `total` is the
plain sum, not rounded, and no discount is applied here). -/
structure CartPricing where
  subtotal : ℚ
  shipping : ℚ
  tax : ℚ
  total : ℚ
deriving DecidableEq

/-- Cart-validation errors: the route rejects a missing/inactive product and an
unknown size; it has no insufficient-stock rejection at all. -/
inductive CartError
  | productNotFound (pid : Nat)
  | sizeUnavailable (size : String)
deriving DecidableEq

/-- The product and size entry a cart item resolves to. -/
def resolveCartItem (products : List Product) (it : CartItem) : Option (Product × SizeEntry) :=
  match findProduct products it.productId with
  | none => none
  | some p =>
    if p.isActive then (findSize p.sizes it.size).map (fun s => (p, s)) else none

/-- The per-item loop of `POST /api/cart/validate` (`routes/cart.js`): product
and size lookups as in order placement, but no stock rejection — the pushed
line carries `quantity = min(requested, stock)` while both the line `subtotal`
and the running cart subtotal use the full requested quantity. -/
def processCart (products : List Product) : List CartItem → Except CartError (List ValidatedItem × ℚ)
  | [] => .ok ([], 0)
  | it :: rest =>
    match findProduct products it.productId with
    | none => .error (.productNotFound it.productId)
    | some p =>
      if !p.isActive then .error (.productNotFound it.productId)
      else
        match findSize p.sizes it.size with
        | none => .error (.sizeUnavailable it.size)
        | some s =>
          match processCart products rest with
          | .error e => .error e
          | .ok (vs, sub) =>
            .ok ({ productId := p.id, name := p.name, image := p.images.head?,
                   size := it.size, price := s.price, stock := s.stock,
                   quantity := min it.quantity s.stock,
                   subtotal := s.price * it.quantity } :: vs,
                 s.price * it.quantity + sub)

/-- `POST /api/cart/validate` (`routes/cart.js`): run the per-item loop, then
`shipping = subtotal >= 100 ? 0 : 9.99`, `tax = round2(subtotal * 0.05)` and
`total = subtotal + shipping + tax`. -/
def cartValidate (products : List Product) (items : List CartItem) :
    Except CartError (List ValidatedItem × CartPricing) :=
  match processCart products items with
  | .error e => .error e
  | .ok (vs, subtotal) =>
    let shipping : ℚ := if 100 ≤ subtotal then 0 else 999/100
    .ok (vs, { subtotal := subtotal, shipping := shipping,
               tax := round2 (subtotal * (5/100)),
               total := subtotal + shipping + round2 (subtotal * (5/100)) })

/-- A coupon table entry (`routes/cart.js` `POST /api/cart/coupon`). -/
structure CouponInfo where
  discount : ℚ
  effect : String
deriving DecidableEq

/-- The fixed coupon table of `routes/cart.js`. -/
def couponTable : List (String × CouponInfo) :=
  [("WELCOME10", { discount := 10, effect := "percentage" }),
   ("ATTAR20", { discount := 20, effect := "percentage" }),
   ("FREESHIP", { discount := 0, effect := "freeShipping" }),
   ("ROYAL50", { discount := 50, effect := "fixed" })]

/-- Error of `POST /api/cart/coupon`: a code outside the table. -/
inductive CouponError
  | invalidCoupon
deriving DecidableEq

/-- `POST /api/cart/coupon` (`routes/cart.js`): look the upper-cased code up in
the fixed table; an absent body code or an unknown code is rejected. -/
def checkCoupon (code : Option String) : Except CouponError (String × CouponInfo) :=
  match code with
  | none => .error .invalidCoupon
  | some c =>
    match couponTable.lookup c.toUpper with
    | none => .error .invalidCoupon
    | some info => .ok (c.toUpper, info)

/-- The approved reviews of a product (`$match {product, isApproved: true}` of
`updateProductRating` in `models/Review.js`). -/
def approvedFor (reviews : List Review) (pid : Nat) : List Review :=
  reviews.filter (fun r => r.product == pid && r.isApproved)

/-- `Product.findByIdAndUpdate(pid, {ratings: v})`: the first product record
with the given id gets the new aggregate rating. -/
def setRatings : List Product → Nat → Ratings → List Product
  | [], _, _ => []
  | p :: rest, pid, v =>
    if p.id == pid then { p with ratings := v } :: rest
    else p :: setRatings rest pid v

/-- `Review.updateProductRating` (`models/Review.js`): aggregate the approved
reviews of the product (`$avg` of `rating`, `$sum: 1`); when the group is
non-empty write `average = round1(mean)` and `count`, otherwise write `0` and
`0`; then update the product. -/
def updateProductRating (reviews : List Review) (pid : Nat) (products : List Product) :
    List Product :=
  let approved := approvedFor reviews pid
  let v : Ratings :=
    if 0 < approved.length then
      { average := round1 (((approved.map (fun r => r.rating)).sum) / (approved.length : ℚ)),
        count := approved.length }
    else { average := 0, count := 0 }
  setRatings products pid v

/-- `POST /api/reviews/:id/helpful` (`routes/reviews.js`): when the user is in
`votedBy` the counter is decremented and `pull` removes the user's entries;
otherwise the counter is incremented and the user is pushed. -/
def toggleHelpful (r : Review) (uid : Nat) : Review :=
  if r.votedBy.contains uid then
    { r with helpfulVotes := r.helpfulVotes - 1,
             votedBy := r.votedBy.filter (fun v => v != uid) }
  else
    { r with helpfulVotes := r.helpfulVotes + 1, votedBy := r.votedBy ++ [uid] }

/-- Whether a requested order item resolves to an active product and size whose
stock is below the requested quantity. -/
def itemOverStock (products : List Product) (it : ReqItem) : Bool :=
  match resolveItem products it with
  | some pr => decide (pr.2.stock < it.quantity)
  | none => false

/-- Whether every requested order item resolves to an active product and an
existing size entry. -/
def allResolve (products : List Product) (items : List ReqItem) : Bool :=
  items.all (fun it => (resolveItem products it).isSome)

/-- Whether a place-order result is the insufficient-stock rejection. -/
def isInsufficientErr : Except OrderError Order → Bool
  | .error (.insufficientStock _) => true
  | _ => false

/-- The discount recorded on a successfully placed order. -/
def orderDiscount : Except OrderError Order → Option ℚ
  | .ok o => some o.pricing.discount
  | _ => none

/-- The paid timestamp recorded on the order a status update returns. -/
def paidAtOf : Except StatusError Order → Option (Option Nat)
  | .ok o => some o.payment.paidAt
  | _ => none

/-- The total quantity the given line items order of product `pid`, size `vol`. -/
def lineQty (items : List OrderItem) (pid : Nat) (vol : String) : ℚ :=
  ((items.filter (fun it => it.product == pid && it.size == vol)).map
    (fun it => it.quantity)).sum

/-- Whether a cart item resolves to an active product and size whose stock is
below the requested quantity. -/
def cartItemOverStock (products : List Product) (it : CartItem) : Bool :=
  match resolveCartItem products it with
  | some pr => decide (pr.2.stock < it.quantity)
  | none => false

/-- Whether every cart item resolves to an active product and an existing size. -/
def allCartResolve (products : List Product) (items : List CartItem) : Bool :=
  items.all (fun it => (resolveCartItem products it).isSome)

/-- A small concrete catalog used by the concrete-input theorems below. -/
def demoProducts : List Product :=
  [{ id := 1, name := "Royal Oud", isActive := true, images := ["oud.jpg"],
     sizes := [{ volume := "3ml", price := 30, stock := 5 },
               { volume := "6ml", price := 50, stock := 0 }],
     ratings := { average := 0, count := 0 } },
   { id := 2, name := "Rose Attar", isActive := true, images := [],
     sizes := [{ volume := "6ml", price := 20, stock := 10 }],
     ratings := { average := 4, count := 2 } }]

/-- A concrete pending order over `demoProducts`. -/
def demoOrder : Order :=
  { user := 7,
    items := [{ product := 1, name := "Royal Oud", image := "oud.jpg", size := "3ml",
                price := 30, quantity := 2 }],
    pricing := { subtotal := 60, shipping := 10, tax := 3, discount := 0,
                 total := 73 },
    couponCode := none, couponDiscount := none,
    payment := { method := "stripe", paidAt := none },
    status := .pending,
    statusHistory := [{ status := .pending, message := "Order placed successfully",
                        timestamp := 0 }],
    tracking := none }

/-- Concrete database: the demo catalog plus the pending demo order. -/
def demoDb : Db := { products := demoProducts, orders := [(1, demoOrder)] }

/-- The demo order already shipped (not cancellable). -/
def shippedDb : Db :=
  { products := demoProducts, orders := [(1, { demoOrder with status := .shipped })] }

/-- The demo order, confirmed, with a paid timestamp already stamped. -/
def paidOrder : Order :=
  { demoOrder with
    status := .confirmed
    payment := { method := "stripe", paidAt := some 5 } }

/-- Database holding `paidOrder`. -/
def paidDb : Db := { products := demoProducts, orders := [(1, paidOrder)] }

/-- What the admin delivered-transition at time 10 turns `paidOrder` into: the
already-set paid timestamp 5 is overwritten with 10. -/
def deliveredOrder : Order :=
  { paidOrder with
    status := .delivered
    statusHistory := paidOrder.statusHistory ++
      [{ status := .delivered, message := "Status updated to delivered", timestamp := 10 }]
    payment := { method := "stripe", paidAt := some 10 } }

/-- A mixed place-order request: an unknown product followed by an item whose
quantity exceeds the stock of its (existing) size. -/
def mixedReq : PlaceRequest :=
  { items := [{ product := 99, size := "3ml", quantity := 1 },
              { product := 1, size := "6ml", quantity := 3 }],
    paymentMethod := none, coupon := none }

/-- A place-order request whose only item exceeds the stock of its size. -/
def overReq : PlaceRequest :=
  { items := [{ product := 1, size := "6ml", quantity := 3 }],
    paymentMethod := none, coupon := none }

/-- A valid place-order request (2 × 3ml of product 1). -/
def okReq : PlaceRequest :=
  { items := [{ product := 1, size := "3ml", quantity := 2 }],
    paymentMethod := none, coupon := none }

/-- A valid request carrying a coupon code that is absent from the coupon table. -/
def unknownCouponReq : PlaceRequest :=
  { items := [{ product := 2, size := "6ml", quantity := 5 }],
    paymentMethod := none, coupon := some "NOSUCH" }

/-- The order that placing `unknownCouponReq` against `demoDb` persists: the
unknown code is not rejected and yields the flat 10% discount. -/
def couponOrder : Order :=
  { user := 7,
    items := [{ product := 2, name := "Rose Attar", image := "", size := "6ml",
                price := 20, quantity := 5 }],
    pricing := { subtotal := 100, shipping := 0, tax := 5, discount := 10, total := 95 },
    couponCode := some "NOSUCH", couponDiscount := some 10,
    payment := { method := "stripe", paidAt := none },
    status := .pending,
    statusHistory := [{ status := .pending, message := "Order placed successfully",
                        timestamp := 0 }],
    tracking := none }

/-- Concrete reviews of product 1: two approved (ratings 5 and 4), one not
approved (rating 1). -/
def demoReviews : List Review :=
  [{ user := 3, product := 1, rating := 5, isApproved := true, helpfulVotes := 0, votedBy := [] },
   { user := 4, product := 1, rating := 4, isApproved := true, helpfulVotes := 0, votedBy := [] },
   { user := 5, product := 1, rating := 1, isApproved := false, helpfulVotes := 0, votedBy := [] }]

/-- Product 1 after rating recomputation over `demoReviews`: mean of 5 and 4 is
4.5, rounded to one decimal, with two approved reviews counted. -/
def ratedProduct : Product :=
  { id := 1, name := "Royal Oud", isActive := true, images := ["oud.jpg"],
    sizes := [{ volume := "3ml", price := 30, stock := 5 },
              { volume := "6ml", price := 50, stock := 0 }],
    ratings := { average := 9/2, count := 2 } }

/-- A concrete review with two helpful votes. -/
def demoReview : Review :=
  { user := 3, product := 1, rating := 5, isApproved := true, helpfulVotes := 2,
    votedBy := [8, 9] }

/-- Mixed cart request: an unknown product followed by an item whose quantity
exceeds the stock of its size. -/
def mixedCart : List CartItem :=
  [{ productId := 99, size := "3ml", quantity := 1 },
   { productId := 1, size := "3ml", quantity := 9 }]

/-- A cart whose only item requests more than the stock of its size. -/
def overCart : List CartItem := [{ productId := 1, size := "3ml", quantity := 9 }]

/-- The order that placing `okReq` against `demoDb` persists: subtotal 60,
shipping 9.99, tax 3, no discount, total 72.99. -/
def okOrder : Order :=
  { user := 7,
    items := [{ product := 1, name := "Royal Oud", image := "oud.jpg", size := "3ml",
                price := 30, quantity := 2 }],
    pricing := { subtotal := 60, shipping := 999/100, tax := 3, discount := 0,
                 total := 7299/100 },
    couponCode := none, couponDiscount := none,
    payment := { method := "stripe", paidAt := none },
    status := .pending,
    statusHistory := [{ status := .pending, message := "Order placed successfully",
                        timestamp := 0 }],
    tracking := none }

/-- Rounding a nonnegative quantity to two decimals stays nonnegative. -/
theorem round2_nonneg {q : ℚ} (h : 0 ≤ q) : 0 ≤ round2 q := by
  have h0 : (0 : ℤ) ≤ ⌊q * 100 + 1/2⌋ := Int.floor_nonneg.mpr (by linarith)
  have h1 : (0 : ℚ) ≤ (⌊q * 100 + 1/2⌋ : ℚ) := by exact_mod_cast h0
  unfold round2
  positivity

/-- `round2` overshoots its argument by at most half a cent. -/
theorem round2_le (q : ℚ) : round2 q ≤ q + 1/200 := by
  have h : ((⌊q * 100 + 1/2⌋ : ℚ)) ≤ q * 100 + 1/2 := Int.floor_le _
  unfold round2
  linarith

/-- `round2` undershoots its argument by at most half a cent. -/
theorem round2_ge (q : ℚ) : q - 1/200 ≤ round2 q := by
  have h : q * 100 + 1/2 - 1 < ((⌊q * 100 + 1/2⌋ : ℚ)) := Int.sub_one_lt_floor _
  unfold round2
  linarith

/-- Inversion of a successful step of the validation loop: a cons succeeds
exactly through the product lookup, active check, size lookup, stock check and
a successful tail. -/
theorem processItems_cons_ok {products : List Product} {it : ReqItem} {rest : List ReqItem}
    {ois : List OrderItem} {sub : ℚ}
    (h : processItems products (it :: rest) = .ok (ois, sub)) :
    ∃ p s ois' sub',
      findProduct products it.product = some p ∧ p.isActive = true ∧
      findSize p.sizes it.size = some s ∧ ¬ s.stock < it.quantity ∧
      processItems products rest = .ok (ois', sub') ∧
      ois = { product := p.id, name := p.name, image := (p.images.head?).getD "",
              size := it.size, price := s.price, quantity := it.quantity } :: ois' ∧
      sub = s.price * it.quantity + sub' := by
  simp only [processItems] at h
  cases hfp : findProduct products it.product with
  | none => simp only [hfp] at h; exact absurd h (by simp)
  | some p =>
    simp only [hfp] at h
    cases hact : p.isActive with
    | false => simp only [hact, Bool.not_false, if_true] at h; exact absurd h (by simp)
    | true =>
      simp only [hact, Bool.not_true, Bool.false_eq_true, if_false] at h
      cases hfs : findSize p.sizes it.size with
      | none => simp only [hfs] at h; exact absurd h (by simp)
      | some s =>
        simp only [hfs] at h
        by_cases hst : s.stock < it.quantity
        · rw [if_pos hst] at h; exact absurd h (by simp)
        · rw [if_neg hst] at h
          cases hrest : processItems products rest with
          | error e => rw [hrest] at h; exact absurd h (by simp)
          | ok pr =>
            obtain ⟨ois', sub'⟩ := pr
            rw [hrest] at h
            simp only [Except.ok.injEq, Prod.mk.injEq] at h
            exact ⟨p, s, ois', sub', rfl, hact, hfs, hst, rfl, h.1.symm, h.2.symm⟩

/-- The accumulated subtotal of the validation loop is the sum of
`price * quantity` over the snapshotted line items. -/
theorem processItems_subtotal (products : List Product) :
    ∀ (items : List ReqItem) (ois : List OrderItem) (sub : ℚ),
      processItems products items = .ok (ois, sub) →
      sub = (ois.map (fun it => it.price * it.quantity)).sum := by
  intro items
  induction items with
  | nil =>
    intro ois sub h
    simp only [processItems, Except.ok.injEq, Prod.mk.injEq] at h
    obtain ⟨h1, h2⟩ := h
    subst h1; subst h2; simp
  | cons it rest ih =>
    intro ois sub h
    obtain ⟨p, s, ois', sub', _, _, _, _, hrest, hois, hsub⟩ := processItems_cons_ok h
    subst hois; subst hsub
    simp [ih ois' sub' hrest]

/-- Every snapshotted line item of the validation loop carries the unit price
of a size entry of a catalog product. -/
theorem processItems_price (products : List Product) :
    ∀ (items : List ReqItem) (ois : List OrderItem) (sub : ℚ),
      processItems products items = .ok (ois, sub) →
      ∀ oi ∈ ois, ∃ p ∈ products, ∃ s ∈ p.sizes, oi.price = s.price := by
  intro items
  induction items with
  | nil =>
    intro ois sub h
    simp only [processItems, Except.ok.injEq, Prod.mk.injEq] at h
    obtain ⟨h1, _⟩ := h
    subst h1; simp
  | cons it rest ih =>
    intro ois sub h
    obtain ⟨p, s, ois', sub', hfp, _, hfs, _, hrest, hois, _⟩ := processItems_cons_ok h
    subst hois
    intro oi hoi
    rcases List.mem_cons.mp hoi with hhd | htl
    · subst hhd
      exact ⟨p, List.mem_of_find?_eq_some hfp, s, List.mem_of_find?_eq_some hfs, rfl⟩
    · exact ih ois' sub' hrest oi htl

/-- Unfolding a successful item resolution into its three lookups. -/
theorem resolveItem_spec {products : List Product} {it : ReqItem} {p : Product} {s : SizeEntry}
    (h : resolveItem products it = some (p, s)) :
    findProduct products it.product = some p ∧ p.isActive = true ∧
    findSize p.sizes it.size = some s := by
  unfold resolveItem at h
  cases hfp : findProduct products it.product with
  | none => rw [hfp] at h; exact absurd h (by simp)
  | some q =>
    rw [hfp] at h
    cases hact : q.isActive with
    | false =>
      simp only [hact, Bool.false_eq_true, if_false] at h
      exact absurd h (by simp)
    | true =>
      simp only [hact, if_true] at h
      cases hfs : findSize q.sizes it.size with
      | none => rw [hfs] at h; exact absurd h (by simp)
      | some t =>
        rw [hfs] at h
        simp only [Option.map_some', Option.some.injEq, Prod.mk.injEq] at h
        obtain ⟨h1, h2⟩ := h
        subst h1; subst h2
        exact ⟨rfl, hact, hfs⟩

/-- An item flagged as over stock resolves to a product and size whose stock is
below the requested quantity. -/
theorem itemOverStock_spec {products : List Product} {it : ReqItem}
    (h : itemOverStock products it = true) :
    ∃ p s, resolveItem products it = some (p, s) ∧ s.stock < it.quantity := by
  unfold itemOverStock at h
  cases hr : resolveItem products it with
  | none => rw [hr] at h; exact absurd h (by simp)
  | some pr =>
    rw [hr] at h
    exact ⟨pr.1, pr.2, rfl, of_decide_eq_true h⟩

/-- When some requested item is over stock, the validation loop fails (with one
of its errors — not necessarily the insufficient-stock one). -/
theorem processItems_err_of_over (products : List Product) :
    ∀ (items : List ReqItem), items.any (itemOverStock products) = true →
      ∃ e, processItems products items = .error e := by
  intro items
  induction items with
  | nil => intro h; simp at h
  | cons it rest ih =>
    intro h
    cases hres : processItems products (it :: rest) with
    | error e => exact ⟨e, rfl⟩
    | ok pr =>
      obtain ⟨ois, sub⟩ := pr
      obtain ⟨p, s, ois', sub', hfp, hact, hfs, hst, hrest, _, _⟩ := processItems_cons_ok hres
      rcases List.any_eq_true.mp h with ⟨x, hx, hover⟩
      rcases List.mem_cons.mp hx with rfl | hxrest
      · obtain ⟨p2, s2, hres2, hst2⟩ := itemOverStock_spec hover
        obtain ⟨hfp2, _, hfs2⟩ := resolveItem_spec hres2
        rw [hfp] at hfp2
        injection hfp2 with hp
        subst hp
        rw [hfs] at hfs2
        injection hfs2 with hs
        subst hs
        exact absurd hst2 hst
      · have hrany : rest.any (itemOverStock products) = true :=
          List.any_eq_true.mpr ⟨x, hxrest, hover⟩
        obtain ⟨e, he⟩ := ih hrany
        rw [he] at hrest
        exact absurd hrest (by simp)

/-- When every requested item resolves and some requested item is over stock,
the validation loop fails with the insufficient-stock error. -/
theorem processItems_insufficient (products : List Product) :
    ∀ (items : List ReqItem), allResolve products items = true →
      items.any (itemOverStock products) = true →
      ∃ n, processItems products items = .error (.insufficientStock n) := by
  intro items
  induction items with
  | nil => intro _ h; simp at h
  | cons it rest ih =>
    intro hall hany
    rw [allResolve, List.all_cons, Bool.and_eq_true] at hall
    obtain ⟨hhead, hrest⟩ := hall
    obtain ⟨⟨p, s⟩, hres⟩ := Option.isSome_iff_exists.mp hhead
    obtain ⟨hfp, hact, hfs⟩ := resolveItem_spec hres
    by_cases hst : s.stock < it.quantity
    · refine ⟨p.name, ?_⟩
      simp [processItems, hfp, hact, hfs, hst]
    · cases hover : itemOverStock products it with
      | true =>
        obtain ⟨p2, s2, hres2, hst2⟩ := itemOverStock_spec hover
        rw [hres] at hres2
        injection hres2 with hpr
        have hs2 : s2 = s := (congrArg Prod.snd hpr).symm
        subst hs2
        exact absurd hst2 hst
      | false =>
        rw [List.any_cons, hover, Bool.false_or] at hany
        obtain ⟨n, he⟩ := ih hrest hany
        refine ⟨n, ?_⟩
        simp [processItems, hfp, hact, hfs, hst, he]

/-- C1 (amended): when some requested line item's quantity exceeds the stock of
its matching size entry, order placement fails — with `InsufficientStock` when
every line item resolves to an active product and an existing size entry (an
earlier invalid item may fail first with its own error) — and in every case no
order record is created and every stock counter is left unchanged. -/
theorem placeOrder_insufficient_aborts (db : Db) (uid : Nat) (req : PlaceRequest) (now : Nat)
    (hover : req.items.any (itemOverStock db.products) = true) :
    ((placeOrder db uid req now).2 = db ∧ ∃ e, (placeOrder db uid req now).1 = .error e) ∧
    (allResolve db.products req.items = true →
      ∃ n, (placeOrder db uid req now).1 = .error (.insufficientStock n)) := by
  have hne : req.items.isEmpty = false := by
    cases hi : req.items with
    | nil => rw [hi] at hover; simp at hover
    | cons a l => simp [hi]
  obtain ⟨e, he⟩ := processItems_err_of_over db.products req.items hover
  refine ⟨⟨?_, ⟨e, ?_⟩⟩, ?_⟩
  · simp [placeOrder, hne, he]
  · simp [placeOrder, hne, he]
  · intro hall
    obtain ⟨n, hn⟩ := processItems_insufficient db.products req.items hall hover
    exact ⟨n, by simp [placeOrder, hne, hn]⟩

/-- C1 counterexample to the claim as stated: the mixed request contains an
over-stock line item, yet placement fails with `productNotFound 99` (the
earlier unknown product), not with `InsufficientStock`. -/
theorem placeOrder_insufficient_cex :
    mixedReq.items.any (itemOverStock demoDb.products) = true ∧
    isInsufficientErr (placeOrder demoDb 7 mixedReq 0).1 = false ∧
    (placeOrder demoDb 7 mixedReq 0).1 = .error (.productNotFound 99) := by
  refine ⟨by decide, by decide, by decide⟩

/-- C1 witness: a request whose single item exceeds its size's stock aborts the
placement and leaves the database unchanged. -/
theorem placeOrder_insufficient_aborts_witness :
    overReq.items.any (itemOverStock demoDb.products) = true ∧
    (((placeOrder demoDb 7 overReq 0).2 = demoDb ∧
      ∃ e, (placeOrder demoDb 7 overReq 0).1 = .error e) ∧
     (allResolve demoDb.products overReq.items = true →
       ∃ n, (placeOrder demoDb 7 overReq 0).1 = .error (.insufficientStock n))) :=
  ⟨by decide, placeOrder_insufficient_aborts demoDb 7 overReq 0 (by decide)⟩

/-- Head step of `findSize` when the head matches. -/
theorem findSize_cons_pos {s0 : SizeEntry} {rest : List SizeEntry} {vol : String}
    (hv : (s0.volume == vol) = true) : findSize (s0 :: rest) vol = some s0 := by
  simp [findSize, List.find?_cons, hv]

/-- Head step of `findSize` when the head does not match. -/
theorem findSize_cons_neg {s0 : SizeEntry} {rest : List SizeEntry} {vol : String}
    (hv : (s0.volume == vol) = false) : findSize (s0 :: rest) vol = findSize rest vol := by
  simp [findSize, List.find?_cons, hv]

/-- Head step of `stockOf` when the head product matches. -/
theorem stockOf_cons_pos {q : Product} {rest : List Product} {pid : Nat} {vol : String}
    (hq : (q.id == pid) = true) :
    stockOf (q :: rest) pid vol = (findSize q.sizes vol).map (fun s => s.stock) := by
  simp [stockOf, findProduct, List.find?_cons, hq]

/-- Head step of `stockOf` when the head product does not match. -/
theorem stockOf_cons_neg {q : Product} {rest : List Product} {pid : Nat} {vol : String}
    (hq : (q.id == pid) = false) :
    stockOf (q :: rest) pid vol = stockOf rest pid vol := by
  simp [stockOf, findProduct, List.find?_cons, hq]

/-- Head step of `updateOneInc` when the head document matches the query. -/
theorem updateOneInc_cons_pos {q : Product} {rest : List Product} {pid : Nat} {vol : String}
    {d : ℚ} (hc : (q.id == pid && hasSize q vol) = true) :
    updateOneInc (q :: rest) pid vol d =
      { q with sizes := incFirstSize q.sizes vol d } :: rest := by
  simp [updateOneInc, hc]

/-- Head step of `updateOneInc` when the head document does not match. -/
theorem updateOneInc_cons_neg {q : Product} {rest : List Product} {pid : Nat} {vol : String}
    {d : ℚ} (hc : (q.id == pid && hasSize q vol) = false) :
    updateOneInc (q :: rest) pid vol d = q :: updateOneInc rest pid vol d := by
  simp only [updateOneInc, hc, Bool.false_eq_true, if_false]

/-- Incrementing the first size entry labelled `vol` rewrites exactly that
entry's stock. -/
theorem findSize_incFirstSize_self :
    ∀ (sizes : List SizeEntry) (vol : String) (d : ℚ) (s : SizeEntry),
      findSize sizes vol = some s →
      findSize (incFirstSize sizes vol d) vol = some { s with stock := s.stock + d } := by
  intro sizes
  induction sizes with
  | nil => intro vol d s h; simp [findSize] at h
  | cons s0 rest ih =>
    intro vol d s h
    cases hv : s0.volume == vol with
    | true =>
      rw [findSize_cons_pos hv] at h
      injection h with h
      subst h
      rw [incFirstSize, if_pos hv]
      exact findSize_cons_pos (by simpa using hv)
    | false =>
      rw [findSize_cons_neg hv] at h
      rw [incFirstSize, if_neg (by simp [hv])]
      rw [findSize_cons_neg hv]
      exact ih vol d s h

/-- Incrementing the first size entry labelled `vol` leaves lookups of any
other volume unchanged. -/
theorem findSize_incFirstSize_ne :
    ∀ (sizes : List SizeEntry) (vol vol2 : String) (d : ℚ), vol2 ≠ vol →
      findSize (incFirstSize sizes vol d) vol2 = findSize sizes vol2 := by
  intro sizes
  induction sizes with
  | nil => intro vol vol2 d _; simp [incFirstSize]
  | cons s0 rest ih =>
    intro vol vol2 d hne
    cases hv : s0.volume == vol with
    | true =>
      have hv2 : (s0.volume == vol2) = false := by
        have hs0 : s0.volume = vol := by simpa using hv
        simp [hs0]
        exact fun hc => hne hc.symm
      rw [incFirstSize, if_pos hv]
      rw [findSize_cons_neg (by simpa using hv2), findSize_cons_neg hv2]
    | false =>
      rw [incFirstSize, if_neg (by simp [hv])]
      cases hv2 : s0.volume == vol2 with
      | true => rw [findSize_cons_pos hv2, findSize_cons_pos hv2]
      | false =>
        rw [findSize_cons_neg hv2, findSize_cons_neg hv2]
        exact ih vol vol2 d hne

/-- A `hasSize` match is exactly a successful `findSize`. -/
theorem hasSize_iff_findSize {p : Product} {vol : String} :
    hasSize p vol = true ↔ (findSize p.sizes vol).isSome := by
  rw [hasSize, List.any_eq_true, findSize, List.find?_isSome]

/-- A stock `$inc` targeted at an existing (product, size) counter adds `d` to
exactly that counter. -/
theorem stockOf_updateOneInc_self :
    ∀ (products : List Product) (pid : Nat) (vol : String) (d x : ℚ),
      stockOf products pid vol = some x →
      stockOf (updateOneInc products pid vol d) pid vol = some (x + d) := by
  intro products
  induction products with
  | nil => intro pid vol d x h; simp [stockOf, findProduct] at h
  | cons q rest ih =>
    intro pid vol d x h
    cases hq : q.id == pid with
    | true =>
      rw [stockOf_cons_pos hq] at h
      cases hfs : findSize q.sizes vol with
      | none => rw [hfs] at h; exact absurd h (by simp)
      | some s =>
        rw [hfs] at h
        simp only [Option.map_some', Option.some.injEq] at h
        have hhs : hasSize q vol = true := hasSize_iff_findSize.mpr (by rw [hfs]; rfl)
        rw [updateOneInc_cons_pos (by rw [hq, hhs]; rfl)]
        have hqn : (({ q with sizes := incFirstSize q.sizes vol d } : Product).id == pid) =
            true := hq
        rw [stockOf_cons_pos hqn]
        have hsz : ({ q with sizes := incFirstSize q.sizes vol d } : Product).sizes =
            incFirstSize q.sizes vol d := rfl
        rw [hsz, findSize_incFirstSize_self q.sizes vol d s hfs]
        simp [h]
    | false =>
      rw [stockOf_cons_neg hq] at h
      have hcond : (q.id == pid && hasSize q vol) = false := by rw [hq]; rfl
      rw [updateOneInc_cons_neg hcond, stockOf_cons_neg hq]
      exact ih pid vol d x h

/-- A stock `$inc` never touches a counter of another product or another
volume. -/
theorem stockOf_updateOneInc_ne :
    ∀ (products : List Product) (pid : Nat) (vol : String) (d : ℚ) (pid2 : Nat) (vol2 : String),
      pid2 ≠ pid ∨ vol2 ≠ vol →
      stockOf (updateOneInc products pid vol d) pid2 vol2 = stockOf products pid2 vol2 := by
  intro products
  induction products with
  | nil => intro pid vol d pid2 vol2 _; simp [updateOneInc]
  | cons q rest ih =>
    intro pid vol d pid2 vol2 hne
    cases hcond : q.id == pid && hasSize q vol with
    | true =>
      rw [updateOneInc_cons_pos hcond]
      cases hq2 : q.id == pid2 with
      | true =>
        have hq2n : (({ q with sizes := incFirstSize q.sizes vol d } : Product).id == pid2) =
            true := hq2
        have hpid : pid2 = pid := by
          have h1 : q.id = pid := by
            simpa using (Bool.and_eq_true_iff.mp hcond).1
          have h2 : q.id = pid2 := by simpa using hq2
          rw [← h2, h1]
        have hvol : vol2 ≠ vol := hne.resolve_left (fun hc => hc hpid)
        rw [stockOf_cons_pos hq2n, stockOf_cons_pos hq2]
        have hsz : ({ q with sizes := incFirstSize q.sizes vol d } : Product).sizes =
            incFirstSize q.sizes vol d := rfl
        rw [hsz, findSize_incFirstSize_ne q.sizes vol vol2 d hvol]
      | false =>
        have hq2n : (({ q with sizes := incFirstSize q.sizes vol d } : Product).id == pid2) =
            false := hq2
        rw [stockOf_cons_neg hq2n, stockOf_cons_neg hq2]
    | false =>
      rw [updateOneInc_cons_neg hcond]
      cases hq2 : q.id == pid2 with
      | true => rw [stockOf_cons_pos hq2, stockOf_cons_pos hq2]
      | false =>
        rw [stockOf_cons_neg hq2, stockOf_cons_neg hq2]
        exact ih pid vol d pid2 vol2 hne

/-- Head step of the per-line ordered-quantity sum. -/
theorem lineQty_cons (it : OrderItem) (rest : List OrderItem) (pid : Nat) (vol : String) :
    lineQty (it :: rest) pid vol =
      (if (it.product == pid && it.size == vol) = true then it.quantity else 0) +
        lineQty rest pid vol := by
  by_cases hc : (it.product == pid && it.size == vol) = true
  · simp [lineQty, List.filter_cons, hc]
  · simp [lineQty, List.filter_cons, hc]

/-- The stock-restoration loop adds, to every existing (product, size) counter,
exactly the summed quantity its line items record for that counter. -/
theorem stockOf_restoreStock :
    ∀ (items : List OrderItem) (products : List Product) (pid : Nat) (vol : String) (x : ℚ),
      stockOf products pid vol = some x →
      stockOf (restoreStock products items) pid vol =
        some (x + lineQty items pid vol) := by
  intro items
  induction items with
  | nil =>
    intro products pid vol x h
    simpa [restoreStock, lineQty] using h
  | cons it rest ih =>
    intro products pid vol x h
    have hfold : restoreStock products (it :: rest) =
        restoreStock (updateOneInc products it.product it.size it.quantity) rest := rfl
    rw [hfold]
    by_cases hc : (it.product == pid && it.size == vol) = true
    · have hp : it.product = pid := by simpa using (Bool.and_eq_true_iff.mp hc).1
      have hv : it.size = vol := by simpa using (Bool.and_eq_true_iff.mp hc).2
      have h1 : stockOf (updateOneInc products it.product it.size it.quantity) pid vol =
          some (x + it.quantity) := by
        rw [hp, hv]
        exact stockOf_updateOneInc_self products pid vol it.quantity x h
      rw [ih _ pid vol (x + it.quantity) h1, lineQty_cons, if_pos hc]
      exact congrArg some (by ring)
    · have hne : pid ≠ it.product ∨ vol ≠ it.size := by
        by_contra hno
        push_neg at hno
        exact hc (by simp [hno.1.symm, hno.2.symm])
      have h1 : stockOf (updateOneInc products it.product it.size it.quantity) pid vol =
          some x := by
        rw [stockOf_updateOneInc_ne products it.product it.size it.quantity pid vol hne]
        exact h
      rw [ih _ pid vol x h1, lineQty_cons, if_neg hc]
      exact congrArg some (by ring)

/-- C2: cancelling an owned order in `pending` or `confirmed` succeeds, sets the
status to `cancelled`, appends exactly one `cancelled` entry to the status
history, and adds back to every (product, size) stock counter exactly the
summed quantity the order's line items record for it. -/
theorem cancelOrder_restores_stock (db : Db) (oid uid : Nat) (reason : Option String)
    (now : Nat) (order : Order)
    (hfind : findOrder db oid = some order)
    (hown : order.user = uid)
    (hst : order.status = .pending ∨ order.status = .confirmed) :
    ∃ order2,
      (cancelOrder db oid uid reason now).1 = .ok order2 ∧
      order2.status = .cancelled ∧
      order2.statusHistory = order.statusHistory ++
        [{ status := .cancelled, message := reason.getD "Cancelled by customer",
           timestamp := now }] ∧
      (∀ pid vol x, stockOf db.products pid vol = some x →
        stockOf ((cancelOrder db oid uid reason now).2).products pid vol =
          some (x + lineQty order.items pid vol)) := by
  have hneq : (order.user != uid) = false := by simp [hown]
  have hcanc : (order.status == OrderStatus.pending || order.status == OrderStatus.confirmed)
      = true := by
    rcases hst with h | h <;> simp [h]
  refine ⟨{ order with
      status := .cancelled,
      statusHistory := order.statusHistory ++
        [{ status := .cancelled, message := reason.getD "Cancelled by customer",
           timestamp := now }] }, ?_, rfl, rfl, ?_⟩
  · simp [cancelOrder, hfind, hneq, hcanc]
  · intro pid vol x hx
    have h2 : ((cancelOrder db oid uid reason now).2).products =
        restoreStock db.products order.items := by
      simp [cancelOrder, hfind, hneq, hcanc]
    rw [h2]
    exact stockOf_restoreStock order.items db.products pid vol x hx

/-- C2 witness: cancelling the pending demo order restores its 2 units of
product 1, size 3ml. -/
theorem cancelOrder_restores_stock_witness :
    findOrder demoDb 1 = some demoOrder ∧ demoOrder.user = 7 ∧
    demoOrder.status = .pending ∧
    (∃ order2,
      (cancelOrder demoDb 1 7 none 3).1 = .ok order2 ∧
      order2.status = .cancelled ∧
      order2.statusHistory = demoOrder.statusHistory ++
        [{ status := .cancelled, message := (none : Option String).getD "Cancelled by customer",
           timestamp := 3 }] ∧
      (∀ pid vol x, stockOf demoDb.products pid vol = some x →
        stockOf ((cancelOrder demoDb 1 7 none 3).2).products pid vol =
          some (x + lineQty demoOrder.items pid vol))) :=
  ⟨by decide, by decide, by decide,
   cancelOrder_restores_stock demoDb 1 7 none 3 demoOrder (by decide) (by decide)
     (Or.inl (by decide))⟩

/-- C3: cancelling an owned order in any status other than `pending` or
`confirmed` fails with the conflict rejection and returns the database
unchanged — the order's status, its history and every stock counter are
untouched. -/
theorem cancelOrder_conflict (db : Db) (oid uid : Nat) (reason : Option String) (now : Nat)
    (order : Order)
    (hfind : findOrder db oid = some order)
    (hown : order.user = uid)
    (hst1 : order.status ≠ .pending) (hst2 : order.status ≠ .confirmed) :
    cancelOrder db oid uid reason now = (.error (.conflict order.status), db) := by
  have hneq : (order.user != uid) = false := by simp [hown]
  have hcanc : (order.status == OrderStatus.pending || order.status == OrderStatus.confirmed)
      = false := by
    simp [hst1, hst2]
  simp [cancelOrder, hfind, hneq, hcanc]

/-- C3 witness: the shipped demo order cannot be cancelled and the database is
returned unchanged. -/
theorem cancelOrder_conflict_witness :
    findOrder shippedDb 1 = some { demoOrder with status := .shipped } ∧
    ({ demoOrder with status := .shipped } : Order).user = 7 ∧
    ({ demoOrder with status := .shipped } : Order).status ≠ .pending ∧
    ({ demoOrder with status := .shipped } : Order).status ≠ .confirmed ∧
    cancelOrder shippedDb 1 7 none 3 =
      (.error (.conflict ({ demoOrder with status := .shipped } : Order).status), shippedDb) :=
  ⟨by decide, by decide, by decide, by decide,
   cancelOrder_conflict shippedDb 1 7 none 3 { demoOrder with status := .shipped }
     (by decide) (by decide) (by decide) (by decide)⟩

/-- C4: every successfully placed order's persisted pricing satisfies the
handler's formulas — `subtotal = Σ price·quantity` over the snapshotted line
items, `shipping = 0` iff `subtotal ≥ 100` (else the flat 9.99),
`tax = round2(subtotal · 0.05)`, `total = round2(subtotal + shipping + tax −
discount)` — and the total is nonnegative (catalog prices are nonnegative by
the product schema). -/
theorem placeOrder_pricing (db : Db) (uid : Nat) (req : PlaceRequest) (now : Nat)
    (order : Order)
    (hprice : ∀ p ∈ db.products, ∀ s ∈ p.sizes, 0 ≤ s.price)
    (hok : (placeOrder db uid req now).1 = .ok order) :
    order.pricing.subtotal = (order.items.map (fun it => it.price * it.quantity)).sum ∧
    order.pricing.shipping = (if 100 ≤ order.pricing.subtotal then 0 else (999/100 : ℚ)) ∧
    order.pricing.tax = round2 (order.pricing.subtotal * (5/100)) ∧
    order.pricing.total = round2 (order.pricing.subtotal + order.pricing.shipping +
      order.pricing.tax - order.pricing.discount) ∧
    0 ≤ order.pricing.total := by
  by_cases hne : req.items.isEmpty
  · rw [placeOrder, if_pos hne] at hok
    exact absurd hok (by simp)
  · cases hpi : processItems db.products req.items with
    | error e =>
      rw [placeOrder, if_neg hne] at hok
      rw [hpi] at hok
      exact absurd hok (by simp)
    | ok pr =>
      obtain ⟨ois, sub⟩ := pr
      by_cases hall : ois.all (fun it => decide ((1 : ℚ) ≤ it.quantity)) = true
      · rw [placeOrder, if_neg hne] at hok
        rw [hpi] at hok
        simp only [hall, if_true, Except.ok.injEq] at hok
        subst hok
        have hsub : sub = (ois.map (fun it => it.price * it.quantity)).sum :=
          processItems_subtotal db.products req.items ois sub hpi
        have hsub_nonneg : 0 ≤ sub := by
          rw [hsub]
          apply List.sum_nonneg
          intro y hy
          obtain ⟨oi, hoi, hoiy⟩ := List.mem_map.mp hy
          obtain ⟨p, hp, sz, hsz, hpr⟩ :=
            processItems_price db.products req.items ois sub hpi oi hoi
          have hq : (1 : ℚ) ≤ oi.quantity :=
            of_decide_eq_true (List.all_eq_true.mp hall oi hoi)
          have hpnn : 0 ≤ oi.price := hpr ▸ hprice p hp sz hsz
          rw [← hoiy]
          exact mul_nonneg hpnn (by linarith)
        refine ⟨hsub, rfl, rfl, rfl, ?_⟩
        show 0 ≤ (computePricing sub req.coupon.isSome).total
        have htax_ge : sub * (5/100) - 1/200 ≤ round2 (sub * (5/100)) := round2_ge _
        have htax_nn : 0 ≤ round2 (sub * (5/100)) :=
          round2_nonneg (by positivity)
        rw [computePricing]
        by_cases hsh : (100 : ℚ) ≤ sub
        · rw [if_pos hsh]
          cases hc : req.coupon.isSome
          · simp only [Bool.false_eq_true, if_false]
            exact round2_nonneg (by linarith)
          · simp only [if_true]
            have hdisc : round2 (sub * (10/100)) ≤ sub * (10/100) + 1/200 := round2_le _
            exact round2_nonneg (by linarith)
        · rw [if_neg hsh]
          cases hc : req.coupon.isSome
          · simp only [Bool.false_eq_true, if_false]
            exact round2_nonneg (by linarith)
          · simp only [if_true]
            have hdisc : round2 (sub * (10/100)) ≤ sub * (10/100) + 1/200 := round2_le _
            exact round2_nonneg (by linarith)
      · rw [placeOrder, if_neg hne] at hok
        rw [hpi] at hok
        simp only [hall, Bool.false_eq_true, if_false] at hok
        exact absurd hok (by simp)

/-- C4 witness: the order placed by `okReq` satisfies all five pricing facts
(subtotal 60, shipping 9.99, tax 3, discount 0, total 72.99 ≥ 0). -/
theorem placeOrder_pricing_witness :
    (∀ p ∈ demoDb.products, ∀ s ∈ p.sizes, 0 ≤ s.price) ∧
    (placeOrder demoDb 7 okReq 0).1 = .ok okOrder ∧
    (okOrder.pricing.subtotal = (okOrder.items.map (fun it => it.price * it.quantity)).sum ∧
     okOrder.pricing.shipping =
       (if 100 ≤ okOrder.pricing.subtotal then 0 else (999/100 : ℚ)) ∧
     okOrder.pricing.tax = round2 (okOrder.pricing.subtotal * (5/100)) ∧
     okOrder.pricing.total = round2 (okOrder.pricing.subtotal + okOrder.pricing.shipping +
       okOrder.pricing.tax - okOrder.pricing.discount) ∧
     0 ≤ okOrder.pricing.total) :=
  ⟨by decide,
   by norm_num [placeOrder, demoDb, demoProducts, okReq, okOrder, processItems, findProduct,
     findSize, List.find?, computePricing, round2],
   placeOrder_pricing demoDb 7 okReq 0 okOrder (by decide)
     (by norm_num [placeOrder, demoDb, demoProducts, okReq, okOrder, processItems, findProduct,
       findSize, List.find?, computePricing, round2])⟩

/-- C5 (amended): order placement never consults the coupon table — any request
carrying any coupon code gets the flat discount `round2(subtotal · 0.10)` and
is not rejected for an unknown code; only the separate cart coupon-check
endpoint resolves codes against the fixed table and rejects absent ones. -/
theorem placeOrder_flat_coupon (db : Db) (uid : Nat) (req : PlaceRequest) (now : Nat)
    (order : Order)
    (hc : req.coupon.isSome = true)
    (hok : (placeOrder db uid req now).1 = .ok order) :
    order.pricing.discount = round2 (order.pricing.subtotal * (10/100)) ∧
    (∀ c : String,
      (checkCoupon (some c) = .error .invalidCoupon ↔ couponTable.lookup c.toUpper = none)) := by
  constructor
  · by_cases hne : req.items.isEmpty
    · rw [placeOrder, if_pos hne] at hok
      exact absurd hok (by simp)
    · cases hpi : processItems db.products req.items with
      | error e =>
        rw [placeOrder, if_neg hne] at hok
        rw [hpi] at hok
        exact absurd hok (by simp)
      | ok pr =>
        obtain ⟨ois, sub⟩ := pr
        by_cases hall : ois.all (fun it => decide ((1 : ℚ) ≤ it.quantity)) = true
        · rw [placeOrder, if_neg hne] at hok
          rw [hpi] at hok
          simp only [hall, if_true, Except.ok.injEq] at hok
          subst hok
          show (computePricing sub req.coupon.isSome).discount =
            round2 ((computePricing sub req.coupon.isSome).subtotal * (10/100))
          rw [hc]
          simp [computePricing]
        · rw [placeOrder, if_neg hne] at hok
          rw [hpi] at hok
          simp only [hall, Bool.false_eq_true, if_false] at hok
          exact absurd hok (by simp)
  · intro c
    cases hl : couponTable.lookup c.toUpper with
    | none => simp [checkCoupon, hl]
    | some info => simp [checkCoupon, hl]

/-- C5 counterexample: the code `NOSUCH` is absent from the coupon table, yet
order placement with it succeeds and records the flat 10% discount instead of
rejecting the request. -/
theorem placeOrder_unknown_coupon_cex :
    couponTable.lookup "NOSUCH" = none ∧
    (placeOrder demoDb 7 unknownCouponReq 0).1 = .ok couponOrder ∧
    couponOrder.pricing.discount = 10 := by
  refine ⟨by decide, ?_, by decide⟩
  norm_num [placeOrder, demoDb, demoProducts, unknownCouponReq, couponOrder, processItems,
    findProduct, findSize, List.find?_cons, computePricing, round2]

/-- C5 witness: the concrete unknown-coupon order carries exactly the flat 10%
discount, and the cart endpoint's rejection matches table membership. -/
theorem placeOrder_flat_coupon_witness :
    unknownCouponReq.coupon.isSome = true ∧
    (placeOrder demoDb 7 unknownCouponReq 0).1 = .ok couponOrder ∧
    (couponOrder.pricing.discount = round2 (couponOrder.pricing.subtotal * (10/100)) ∧
     (∀ c : String,
       (checkCoupon (some c) = .error .invalidCoupon ↔
         couponTable.lookup c.toUpper = none))) :=
  ⟨by decide,
   by norm_num [placeOrder, demoDb, demoProducts, unknownCouponReq, couponOrder, processItems,
     findProduct, findSize, List.find?_cons, computePricing, round2],
   placeOrder_flat_coupon demoDb 7 unknownCouponReq 0 couponOrder (by decide)
     (by norm_num [placeOrder, demoDb, demoProducts, unknownCouponReq, couponOrder,
       processItems, findProduct, findSize, List.find?_cons, computePricing, round2])⟩

/-- C6: the admin status update never touches the product collection (for every
target status, `cancelled` and `delivered` included), while customer
cancellation of a cancellable owned order performs the compensating per-counter
stock restoration. -/
theorem status_update_stock_frame :
    (∀ (db : Db) (oid : Nat) (st : OrderStatus) (msg trk : Option String) (now : Nat),
      ((adminUpdateStatus db oid st msg trk now).2).products = db.products) ∧
    (∀ (db : Db) (oid uid : Nat) (reason : Option String) (now : Nat) (order : Order),
      findOrder db oid = some order → order.user = uid →
      (order.status = .pending ∨ order.status = .confirmed) →
      ∀ pid vol x, stockOf db.products pid vol = some x →
        stockOf ((cancelOrder db oid uid reason now).2).products pid vol =
          some (x + lineQty order.items pid vol)) := by
  constructor
  · intro db oid st msg trk now
    cases hfind : findOrder db oid with
    | none => simp [adminUpdateStatus, hfind]
    | some order => simp [adminUpdateStatus, hfind]
  · intro db oid uid reason now order hfind hown hst pid vol x hx
    have hneq : (order.user != uid) = false := by simp [hown]
    have hcanc : (order.status == OrderStatus.pending || order.status == OrderStatus.confirmed)
        = true := by
      rcases hst with h | h <;> simp [h]
    have h2 : ((cancelOrder db oid uid reason now).2).products =
        restoreStock db.products order.items := by
      simp [cancelOrder, hfind, hneq, hcanc]
    rw [h2]
    exact stockOf_restoreStock order.items db.products pid vol x hx

/-- C6 witness: marking the demo order delivered leaves the catalog untouched,
and cancelling it restores the counters per line item. -/
theorem status_update_stock_frame_witness :
    ((adminUpdateStatus demoDb 1 .delivered none none 9).2).products = demoDb.products ∧
    (∀ pid vol x, stockOf demoDb.products pid vol = some x →
      stockOf ((cancelOrder demoDb 1 7 none 3).2).products pid vol =
        some (x + lineQty demoOrder.items pid vol)) :=
  ⟨status_update_stock_frame.1 demoDb 1 .delivered none none 9,
   status_update_stock_frame.2 demoDb 1 7 none 3 demoOrder (by decide) (by decide)
     (Or.inl (by decide))⟩

/-- C7 (amended): the admin delivered-transition always assigns the current
time to the payment's paid timestamp — overwriting an already-set value — and
every other target status leaves the paid timestamp unchanged. -/
theorem delivered_stamps_paidAt (db : Db) (oid : Nat) (st : OrderStatus)
    (msg trk : Option String) (now : Nat) (order order2 : Order)
    (hfind : findOrder db oid = some order)
    (hok : (adminUpdateStatus db oid st msg trk now).1 = .ok order2) :
    order2.payment.paidAt = if st = .delivered then some now else order.payment.paidAt := by
  simp only [adminUpdateStatus, hfind, Except.ok.injEq] at hok
  subst hok
  by_cases hd : st = OrderStatus.delivered
  · subst hd
    simp
  · have hb : (st == OrderStatus.delivered) = false := by
      simp [hd]
    simp [hb, hd]

/-- C7 counterexample: the stored order's paid timestamp is 5, but the
delivered-transition at time 10 rewrites it to 10 instead of leaving it set. -/
theorem delivered_overwrites_paidAt_cex :
    ((findOrder paidDb 1).map (fun o => o.payment.paidAt)) = some (some 5) ∧
    paidAtOf (adminUpdateStatus paidDb 1 .delivered none none 10).1 = some (some 10) :=
  ⟨by decide, by decide⟩

/-- C7 witness: delivering `paidOrder` at time 10 yields `deliveredOrder`, whose
paid timestamp is the new time 10. -/
theorem delivered_stamps_paidAt_witness :
    findOrder paidDb 1 = some paidOrder ∧
    (adminUpdateStatus paidDb 1 .delivered none none 10).1 = .ok deliveredOrder ∧
    deliveredOrder.payment.paidAt =
      (if OrderStatus.delivered = OrderStatus.delivered then some 10
       else paidOrder.payment.paidAt) :=
  ⟨by decide, by decide,
   delivered_stamps_paidAt paidDb 1 .delivered none none 10 paidOrder deliveredOrder
     (by decide) (by decide)⟩

/-- The product `findByIdAndUpdate` rewrote carries exactly the written
aggregate rating. -/
theorem setRatings_find :
    ∀ (products : List Product) (pid : Nat) (v : Ratings) (p : Product),
      findProduct (setRatings products pid v) pid = some p → p.ratings = v := by
  intro products
  induction products with
  | nil => intro pid v p h; simp [setRatings, findProduct] at h
  | cons q rest ih =>
    intro pid v p h
    cases hq : q.id == pid with
    | true =>
      rw [setRatings, if_pos hq] at h
      rw [findProduct, List.find?_cons_of_pos _ (by exact hq)] at h
      injection h with h
      rw [← h]
    | false =>
      rw [setRatings, if_neg (by simp [hq])] at h
      rw [findProduct, List.find?_cons_of_neg _ (by simp [hq])] at h
      exact ih pid v p h

/-- Writing the same aggregate rating twice is the same as writing it once. -/
theorem setRatings_idem :
    ∀ (products : List Product) (pid : Nat) (v : Ratings),
      setRatings (setRatings products pid v) pid v = setRatings products pid v := by
  intro products
  induction products with
  | nil => intro pid v; rfl
  | cons q rest ih =>
    intro pid v
    cases hq : q.id == pid with
    | true => rw [setRatings, if_pos hq, setRatings, if_pos hq]
    | false =>
      rw [setRatings, if_neg (by simp [hq]), setRatings, if_neg (by simp [hq]), ih]

/-- C8: the rating recomputation is idempotent over an unchanged review set,
and the product it rewrites carries `average = round1(mean of approved
ratings)` (the division-by-zero convention makes this `0` for an empty set,
as the code writes) and `count = number of approved reviews`. -/
theorem updateProductRating_spec (reviews : List Review) (pid : Nat)
    (products : List Product) :
    updateProductRating reviews pid (updateProductRating reviews pid products) =
      updateProductRating reviews pid products ∧
    ∀ p, findProduct (updateProductRating reviews pid products) pid = some p →
      p.ratings.average =
        round1 (((approvedFor reviews pid).map (fun r => r.rating)).sum /
          ((approvedFor reviews pid).length : ℚ)) ∧
      p.ratings.count = (approvedFor reviews pid).length := by
  constructor
  · rw [updateProductRating, updateProductRating]
    exact setRatings_idem products pid _
  · intro p hp
    rw [updateProductRating] at hp
    have hv := setRatings_find products pid _ p hp
    by_cases hlen : 0 < (approvedFor reviews pid).length
    · rw [if_pos hlen] at hv
      rw [hv]
      exact ⟨rfl, rfl⟩
    · rw [if_neg hlen] at hv
      have hzero : (approvedFor reviews pid).length = 0 := Nat.eq_zero_of_not_pos hlen
      have hnil : approvedFor reviews pid = [] := List.length_eq_zero.mp hzero
      rw [hv, hnil]
      constructor
      · show (0 : ℚ) = round1 (([] : List ℚ).sum / ((0 : Nat) : ℚ))
        norm_num [round1]
      · show 0 = ([] : List Review).length
        rfl

/-- C8 witness: recomputing product 1's rating over the demo reviews writes
average 4.5 and count 2, matching the closed formula. -/
theorem updateProductRating_spec_witness :
    findProduct (updateProductRating demoReviews 1 demoProducts) 1 = some ratedProduct ∧
    (ratedProduct.ratings.average =
        round1 (((approvedFor demoReviews 1).map (fun r => r.rating)).sum /
          ((approvedFor demoReviews 1).length : ℚ)) ∧
     ratedProduct.ratings.count = (approvedFor demoReviews 1).length) :=
  ⟨by norm_num [updateProductRating, approvedFor, setRatings, round1, demoReviews,
     demoProducts, ratedProduct, findProduct, List.find?_cons, List.filter],
   (updateProductRating_spec demoReviews 1 demoProducts).2 ratedProduct
     (by norm_num [updateProductRating, approvedFor, setRatings, round1, demoReviews,
       demoProducts, ratedProduct, findProduct, List.find?_cons, List.filter])⟩

/-- C9: the helpful-vote toggle keeps the counter equal to the voter set's
size whenever it was equal before, and toggling the same user twice restores
both the counter and the voter set. -/
theorem toggleHelpful_spec (r : Review) (uid : Nat) :
    (r.helpfulVotes = (r.votedBy.toFinset.card : Int) →
      (toggleHelpful r uid).helpfulVotes =
        ((toggleHelpful r uid).votedBy.toFinset.card : Int)) ∧
    (toggleHelpful (toggleHelpful r uid) uid).helpfulVotes = r.helpfulVotes ∧
    (∀ v, v ∈ (toggleHelpful (toggleHelpful r uid) uid).votedBy ↔ v ∈ r.votedBy) := by
  by_cases hin : uid ∈ r.votedBy
  · have hc : r.votedBy.contains uid = true := by simpa using hin
    have ht1 : toggleHelpful r uid =
        { r with helpfulVotes := r.helpfulVotes - 1,
                 votedBy := r.votedBy.filter (fun v => v != uid) } := by
      rw [toggleHelpful, if_pos hc]
    have hfins : (r.votedBy.filter (fun v => v != uid)).toFinset =
        r.votedBy.toFinset.erase uid := by
      rw [List.toFinset_filter]
      ext x
      simp [Finset.mem_erase]
      tauto
    have hc2 : (r.votedBy.filter (fun v => v != uid)).contains uid = false := by
      simp
    have ht2 : toggleHelpful (toggleHelpful r uid) uid =
        { r with helpfulVotes := r.helpfulVotes - 1 + 1,
                 votedBy := r.votedBy.filter (fun v => v != uid) ++ [uid] } := by
      rw [ht1, toggleHelpful, if_neg (by simp [hc2])]
    refine ⟨?_, ?_, ?_⟩
    · intro h
      rw [ht1]
      show r.helpfulVotes - 1 = ((r.votedBy.filter (fun v => v != uid)).toFinset.card : Int)
      rw [hfins, Finset.card_erase_of_mem (List.mem_toFinset.mpr hin)]
      have hpos : 1 ≤ r.votedBy.toFinset.card :=
        Finset.card_pos.mpr ⟨uid, List.mem_toFinset.mpr hin⟩
      rw [h]
      omega
    · rw [ht2]
      show r.helpfulVotes - 1 + 1 = r.helpfulVotes
      ring
    · intro v
      rw [ht2]
      show v ∈ r.votedBy.filter (fun w => w != uid) ++ [uid] ↔ v ∈ r.votedBy
      simp only [List.mem_append, List.mem_filter, List.mem_singleton, bne_iff_ne, ne_eq,
        decide_eq_true_eq]
      constructor
      · rintro (⟨hv, _⟩ | rfl)
        · exact hv
        · exact hin
      · intro hv
        by_cases hvu : v = uid
        · exact Or.inr hvu
        · exact Or.inl ⟨hv, by simpa using hvu⟩
  · have hc : r.votedBy.contains uid = false := by simpa using hin
    have ht1 : toggleHelpful r uid =
        { r with helpfulVotes := r.helpfulVotes + 1, votedBy := r.votedBy ++ [uid] } := by
      rw [toggleHelpful, if_neg (by simpa using hin)]
    have hc2 : (r.votedBy ++ [uid]).contains uid = true := by simp
    have hkeep : (r.votedBy ++ [uid]).filter (fun v => v != uid) = r.votedBy := by
      rw [List.filter_append]
      have h1 : r.votedBy.filter (fun v => v != uid) = r.votedBy := by
        rw [List.filter_eq_self]
        intro a ha
        simp
        exact fun hc3 => hin (hc3 ▸ ha)
      have h2 : ([uid] : List Nat).filter (fun v => v != uid) = [] := by simp
      rw [h1, h2, List.append_nil]
    have ht2 : toggleHelpful (toggleHelpful r uid) uid =
        { r with helpfulVotes := r.helpfulVotes + 1 - 1, votedBy := r.votedBy } := by
      rw [ht1, toggleHelpful, if_pos hc2]
      simp only [hkeep]
    refine ⟨?_, ?_, ?_⟩
    · intro h
      rw [ht1]
      show r.helpfulVotes + 1 = ((r.votedBy ++ [uid]).toFinset.card : Int)
      have hfins : (r.votedBy ++ [uid]).toFinset = insert uid r.votedBy.toFinset := by
        ext x
        simp
        tauto
      rw [hfins, Finset.card_insert_of_not_mem (by simpa using hin), h]
      push_cast
      ring
    · rw [ht2]
      show r.helpfulVotes + 1 - 1 = r.helpfulVotes
      ring
    · intro v
      rw [ht2]

/-- C9 witness: the demo review's counter 2 equals its voter-set size, and both
facts of the toggle hold for user 8. -/
theorem toggleHelpful_spec_witness :
    demoReview.helpfulVotes = (demoReview.votedBy.toFinset.card : Int) ∧
    ((demoReview.helpfulVotes = (demoReview.votedBy.toFinset.card : Int) →
       (toggleHelpful demoReview 8).helpfulVotes =
         ((toggleHelpful demoReview 8).votedBy.toFinset.card : Int)) ∧
     (toggleHelpful (toggleHelpful demoReview 8) 8).helpfulVotes =
       demoReview.helpfulVotes ∧
     (∀ v, v ∈ (toggleHelpful (toggleHelpful demoReview 8) 8).votedBy ↔
       v ∈ demoReview.votedBy)) :=
  ⟨by decide, toggleHelpful_spec demoReview 8⟩

/-- Unfolding a successful cart-item resolution into its three lookups. -/
theorem resolveCartItem_spec {products : List Product} {it : CartItem} {p : Product}
    {s : SizeEntry} (h : resolveCartItem products it = some (p, s)) :
    findProduct products it.productId = some p ∧ p.isActive = true ∧
    findSize p.sizes it.size = some s := by
  unfold resolveCartItem at h
  cases hfp : findProduct products it.productId with
  | none => rw [hfp] at h; exact absurd h (by simp)
  | some q =>
    rw [hfp] at h
    cases hact : q.isActive with
    | false =>
      simp only [hact, Bool.false_eq_true, if_false] at h
      exact absurd h (by simp)
    | true =>
      simp only [hact, if_true] at h
      cases hfs : findSize q.sizes it.size with
      | none => rw [hfs] at h; exact absurd h (by simp)
      | some t =>
        rw [hfs] at h
        simp only [Option.map_some', Option.some.injEq, Prod.mk.injEq] at h
        obtain ⟨h1, h2⟩ := h
        subst h1; subst h2
        exact ⟨rfl, hact, hfs⟩

/-- The cart-validation loop on a fully resolving item list: it succeeds with
no stock rejection, caps each returned quantity at the stock, prices each line
and the accumulated subtotal by the full requested quantity. -/
theorem processCart_spec (products : List Product) :
    ∀ (items : List CartItem),
      items.all (fun it => (resolveCartItem products it).isSome) = true →
      ∃ vs sub, processCart products items = .ok (vs, sub) ∧
        List.Forall₂ (fun (it : CartItem) (v : ValidatedItem) =>
          ∀ p s, resolveCartItem products it = some (p, s) →
            v.quantity = min it.quantity s.stock ∧
            v.subtotal = s.price * it.quantity ∧
            v.price = s.price) items vs ∧
        sub = (vs.map (fun v => v.subtotal)).sum := by
  intro items
  induction items with
  | nil =>
    intro _
    exact ⟨[], 0, rfl, List.Forall₂.nil, by simp⟩
  | cons it rest ih =>
    intro hall
    rw [List.all_cons, Bool.and_eq_true] at hall
    obtain ⟨hhead, hrest⟩ := hall
    obtain ⟨⟨p, s⟩, hres⟩ := Option.isSome_iff_exists.mp hhead
    obtain ⟨hfp, hact, hfs⟩ := resolveCartItem_spec hres
    obtain ⟨vs, sub, hpc, hrel, hsum⟩ := ih hrest
    refine ⟨{ productId := p.id, name := p.name, image := p.images.head?, size := it.size,
              price := s.price, stock := s.stock, quantity := min it.quantity s.stock,
              subtotal := s.price * it.quantity } :: vs,
            s.price * it.quantity + sub, ?_, ?_, ?_⟩
    · simp [processCart, hfp, hact, hfs, hpc]
    · refine List.Forall₂.cons ?_ hrel
      intro p2 s2 h2
      rw [hres] at h2
      injection h2 with h2
      have hp2 : p2 = p := (congrArg Prod.fst h2).symm
      have hs2 : s2 = s := (congrArg Prod.snd h2).symm
      subst hp2; subst hs2
      exact ⟨rfl, rfl, rfl⟩
    · simp [hsum]

/-- C10 (amended): when every cart item references an active product and an
existing size entry, cart validation succeeds even when requested quantities
exceed stock — there is no insufficient-stock rejection; each returned line
carries `quantity = min(requested, stock)` while its `subtotal`, the cart
subtotal (the sum of the line subtotals) and hence the total are priced by the
full requested quantity. -/
theorem cartValidate_caps_quantity (products : List Product) (items : List CartItem)
    (hres : allCartResolve products items = true) :
    ∃ vs pricing, cartValidate products items = .ok (vs, pricing) ∧
      List.Forall₂ (fun (it : CartItem) (v : ValidatedItem) =>
        ∀ p s, resolveCartItem products it = some (p, s) →
          v.quantity = min it.quantity s.stock ∧
          v.subtotal = s.price * it.quantity ∧
          v.price = s.price) items vs ∧
      pricing.subtotal = (vs.map (fun v => v.subtotal)).sum ∧
      pricing.total = pricing.subtotal + pricing.shipping + pricing.tax := by
  obtain ⟨vs, sub, hpc, hrel, hsum⟩ := processCart_spec products items hres
  refine ⟨vs, { subtotal := sub, shipping := if 100 ≤ sub then 0 else 999/100,
                tax := round2 (sub * (5/100)),
                total := sub + (if 100 ≤ sub then 0 else 999/100) + round2 (sub * (5/100)) },
          ?_, hrel, hsum, rfl⟩
  simp [cartValidate, hpc]

/-- C10 counterexample to the claim as stated: the mixed cart contains an item
whose quantity exceeds its size's stock, yet validation does not succeed — it
fails on the earlier unknown product. -/
theorem cartValidate_mixed_cex :
    ({ productId := 1, size := "3ml", quantity := 9 } : CartItem) ∈ mixedCart ∧
    cartItemOverStock demoProducts { productId := 1, size := "3ml", quantity := 9 } = true ∧
    cartValidate demoProducts mixedCart = .error (.productNotFound 99) :=
  ⟨by decide, by decide, by decide⟩

/-- C10 witness: validating a cart requesting 9 units with stock 5 succeeds,
capping the returned quantity while pricing the full request. -/
theorem cartValidate_caps_quantity_witness :
    allCartResolve demoProducts overCart = true ∧
    (∃ vs pricing, cartValidate demoProducts overCart = .ok (vs, pricing) ∧
      List.Forall₂ (fun (it : CartItem) (v : ValidatedItem) =>
        ∀ p s, resolveCartItem demoProducts it = some (p, s) →
          v.quantity = min it.quantity s.stock ∧
          v.subtotal = s.price * it.quantity ∧
          v.price = s.price) overCart vs ∧
      pricing.subtotal = (vs.map (fun v => v.subtotal)).sum ∧
      pricing.total = pricing.subtotal + pricing.shipping + pricing.tax) :=
  ⟨by decide, cartValidate_caps_quantity demoProducts overCart (by decide)⟩

end Attar
